import Mathlib

/-!
Verification of the delve debugger control core (websocket prototype).

The development shallowly embeds, from the Go sources:
  * `api`      — the wire protocol structs (`Command`, `Event`) together with
    Go `encoding/json` marshalling/unmarshalling as it behaves on exactly
    these struct declarations and their field tags;
  * `client`   — the command frames written by `WebsocketClient`;
  * `terminal` — the `Commands` dispatch table (`Register`/`Find`) and the
    line-handling step of `Term.Run`;
  * `server`   — the two `Debugger` variants (the channel-loop one from
    `server.go` and the `procManager`-based one from `websocket.go`) and the
    command dispatch of `readCommands`.

The low-level `proctl` package (the process handle) is not part of the
sources; where a claim depends on it, its operations are modelled from the
spec and marked as such, and genuinely external effects (ptrace results,
symbol resolution) are passed in as explicit parameters.
-/

namespace delve

/-! ## A small JSON value model

Go `encoding/json` output for the fixed struct types of the `api` package is
captured by a first-order JSON value: objects keep the field order in which
the encoder writes them (struct declaration order). -/

inductive JVal : Type
  | null : JVal
  | str : String → JVal
  | int : Int → JVal
  | bool : Bool → JVal
  | arr : List JVal → JVal
  | obj : List (String × JVal) → JVal

/-- Field lookup in an object, first occurrence wins (as in Go decoding). -/
def JVal.getField (j : JVal) (k : String) : Option JVal :=
  match j with
  | .obj fs => (fs.find? (fun kv => kv.1 == k)).map (fun kv => kv.2)
  | _ => none

def JVal.isNull : JVal → Bool
  | .null => true
  | _ => false

/-! ## `api` package: protocol data types (`api/types.go`, protocol file)

Pointer-typed payload fields become `Option`; Go zero values are the
`Option` `none`, the empty string, `0` and `false`. -/

namespace api

structure AddBreakPointCommand where
  location : String
deriving DecidableEq

structure SwitchThreadCommand where
  id : Int
deriving DecidableEq

structure ClearCommand where
  breakPoint : Nat
deriving DecidableEq

structure EmptyCommand where
deriving DecidableEq

/-- The `Command` struct. Field `switchThread` carries the JSON tag
`switchThreads`; fields `step` and `next` BOTH carry the JSON tag `step` in
the source. -/
structure Command where
  name : String
  addBreakPoint : Option AddBreakPointCommand
  clearBreakPoints : Option EmptyCommand
  detach : Option EmptyCommand
  kill : Option EmptyCommand
  switchThread : Option SwitchThreadCommand
  continu : Option EmptyCommand
  step : Option EmptyCommand
  next : Option EmptyCommand
  clear : Option ClearCommand
deriving DecidableEq

/-- A command with only the name set (all payload pointers nil). -/
def namedCommand (n : String) : Command :=
  ⟨n, none, none, none, none, none, none, none, none, none⟩

structure BreakPoint where
  id : Int
  functionName : String
  file : String
  line : Int
  addr : Nat
deriving DecidableEq

structure PCLine where
  file : String
  line : Int
  value : Nat
  type : Nat
  name : String
  goType : Nat
deriving DecidableEq

structure Thread where
  id : Int
  status : Nat
  currentPC : Nat
  currentLine : Option PCLine
  isCurrent : Bool
deriving DecidableEq

structure Process where
  files : List String
  exited : Bool
  status : Nat
deriving DecidableEq

structure MessageData where
  body : String
  level : Int
  isError : Bool
deriving DecidableEq

structure ThreadsUpdatedData where
  timestamp : Int
  threads : List Thread
deriving DecidableEq

structure BreakPointsUpdatedData where
  timestamp : Int
  breakPoints : List BreakPoint
deriving DecidableEq

structure ProcessUpdatedData where
  process : Option Process
deriving DecidableEq

/-- The `Event` struct: `message`, `threadsUpdated` and `breakPointsUpdated`
carry `omitempty`; `processUpdated` does not. -/
structure Event where
  name : String
  message : Option MessageData
  threadsUpdated : Option ThreadsUpdatedData
  breakPointsUpdated : Option BreakPointsUpdatedData
  processUpdated : Option ProcessUpdatedData
deriving DecidableEq

/-! ### Marshalling (Go `json.Marshal` on these declarations) -/

def encOpt (f : α → JVal) : Option α → JVal
  | none => .null
  | some a => f a

def AddBreakPointCommand.marshal (c : AddBreakPointCommand) : JVal :=
  .obj [("location", .str c.location)]

def SwitchThreadCommand.marshal (c : SwitchThreadCommand) : JVal :=
  .obj [("id", .int c.id)]

def ClearCommand.marshal (c : ClearCommand) : JVal :=
  .obj [("breakPoint", .int (c.breakPoint : Int))]

def EmptyCommand.marshal (_ : EmptyCommand) : JVal :=
  .obj []

/-- Encoding of `Command`. The fields `Step` and `Next` both declare the JSON
key `"step"`; `encoding/json` treats equally tagged same-level fields as an
unresolvable conflict and drops them all, so neither appears in the output. -/
def Command.marshal (c : Command) : JVal :=
  .obj
    [ ("name", .str c.name)
    , ("addBreakPoint", encOpt AddBreakPointCommand.marshal c.addBreakPoint)
    , ("clearBreakPoints", encOpt EmptyCommand.marshal c.clearBreakPoints)
    , ("detach", encOpt EmptyCommand.marshal c.detach)
    , ("kill", encOpt EmptyCommand.marshal c.kill)
    , ("switchThreads", encOpt SwitchThreadCommand.marshal c.switchThread)
    , ("continue", encOpt EmptyCommand.marshal c.continu)
    , ("clear", encOpt ClearCommand.marshal c.clear) ]

def BreakPoint.marshal (b : BreakPoint) : JVal :=
  .obj
    [ ("id", .int b.id)
    , ("functionName", .str b.functionName)
    , ("file", .str b.file)
    , ("line", .int b.line)
    , ("addr", .int (b.addr : Int)) ]

def PCLine.marshal (l : PCLine) : JVal :=
  .obj
    [ ("file", .str l.file)
    , ("line", .int l.line)
    , ("value", .int (l.value : Int))
    , ("type", .int (l.type : Int))
    , ("name", .str l.name)
    , ("goType", .int (l.goType : Int)) ]

/-- `Thread`: `currentLine` (pointer) and `isCurrent` (bool) are `omitempty`,
so a nil line and a false flag are omitted from the object. -/
def Thread.marshal (t : Thread) : JVal :=
  .obj
    ([ ("id", .int t.id)
     , ("status", .int (t.status : Int))
     , ("currentPc", .int (t.currentPC : Int)) ]
     ++ (match t.currentLine with
         | none => []
         | some l => [("currentLine", l.marshal)])
     ++ (if t.isCurrent then [("isCurrent", .bool true)] else []))

def Process.marshal (p : Process) : JVal :=
  .obj
    [ ("files", .arr (p.files.map JVal.str))
    , ("exited", .bool p.exited)
    , ("status", .int (p.status : Int)) ]

def MessageData.marshal (m : MessageData) : JVal :=
  .obj
    [ ("body", .str m.body)
    , ("level", .int m.level)
    , ("isError", .bool m.isError) ]

def ThreadsUpdatedData.marshal (d : ThreadsUpdatedData) : JVal :=
  .obj
    [ ("timestamp", .int d.timestamp)
    , ("threads", .arr (d.threads.map Thread.marshal)) ]

def BreakPointsUpdatedData.marshal (d : BreakPointsUpdatedData) : JVal :=
  .obj
    [ ("timestamp", .int d.timestamp)
    , ("breakPoints", .arr (d.breakPoints.map BreakPoint.marshal)) ]

def ProcessUpdatedData.marshal (d : ProcessUpdatedData) : JVal :=
  .obj [("process", encOpt Process.marshal d.process)]

/-- Encoding of `Event`: the three `omitempty` payloads are omitted when nil,
`processUpdated` is always written (as `null` when nil). -/
def Event.marshal (e : Event) : JVal :=
  .obj
    ([("name", .str e.name)]
     ++ (match e.message with
         | none => []
         | some m => [("message", m.marshal)])
     ++ (match e.threadsUpdated with
         | none => []
         | some d => [("threadsUpdated", d.marshal)])
     ++ (match e.breakPointsUpdated with
         | none => []
         | some d => [("breakPointsUpdated", d.marshal)])
     ++ [("processUpdated", encOpt ProcessUpdatedData.marshal e.processUpdated)])

/-! ### Unmarshalling (Go `json.Unmarshal` into fresh zero values)

Per Go semantics: an absent key leaves the zero value; a JSON `null` is a
no-op for strings/numbers/bools and sets pointers to nil; a type mismatch is
a decode error (`none` here). -/

def decStr : Option JVal → Option String
  | Option.none => some ""
  | some .null => some ""
  | some (.str s) => some s
  | _ => none

def decInt : Option JVal → Option Int
  | Option.none => some 0
  | some .null => some 0
  | some (.int n) => some n
  | _ => none

def decNat : Option JVal → Option Nat
  | Option.none => some 0
  | some .null => some 0
  | some (.int n) => if n < 0 then none else some n.toNat
  | _ => none

def decBool : Option JVal → Option Bool
  | Option.none => some false
  | some .null => some false
  | some (.bool b) => some b
  | _ => none

def decPtr (f : JVal → Option α) : Option JVal → Option (Option α)
  | Option.none => some none
  | some .null => some none
  | some j => (f j).map some

def decList (f : JVal → Option α) : Option JVal → Option (List α)
  | Option.none => some []
  | some .null => some []
  | some (.arr xs) => xs.mapM f
  | _ => none

def AddBreakPointCommand.unmarshal (j : JVal) : Option AddBreakPointCommand := do
  match j with
  | .obj _ => return ⟨← decStr (j.getField "location")⟩
  | _ => none

def SwitchThreadCommand.unmarshal (j : JVal) : Option SwitchThreadCommand := do
  match j with
  | .obj _ => return ⟨← decInt (j.getField "id")⟩
  | _ => none

def ClearCommand.unmarshal (j : JVal) : Option ClearCommand := do
  match j with
  | .obj _ => return ⟨← decNat (j.getField "breakPoint")⟩
  | _ => none

def EmptyCommand.unmarshal (j : JVal) : Option EmptyCommand :=
  match j with
  | .obj _ => some ⟨⟩
  | _ => none

/-- Decoding of `Command`. The conflicting tag `"step"` of the `Step` and
`Next` fields means the decoder never fills either: both stay nil. -/
def Command.unmarshal (j : JVal) : Option Command := do
  match j with
  | .obj _ =>
    return { name := ← decStr (j.getField "name")
           , addBreakPoint := ← decPtr AddBreakPointCommand.unmarshal (j.getField "addBreakPoint")
           , clearBreakPoints := ← decPtr EmptyCommand.unmarshal (j.getField "clearBreakPoints")
           , detach := ← decPtr EmptyCommand.unmarshal (j.getField "detach")
           , kill := ← decPtr EmptyCommand.unmarshal (j.getField "kill")
           , switchThread := ← decPtr SwitchThreadCommand.unmarshal (j.getField "switchThreads")
           , continu := ← decPtr EmptyCommand.unmarshal (j.getField "continue")
           , step := none
           , next := none
           , clear := ← decPtr ClearCommand.unmarshal (j.getField "clear") }
  | _ => none

def BreakPoint.unmarshal (j : JVal) : Option BreakPoint := do
  match j with
  | .obj _ =>
    return { id := ← decInt (j.getField "id")
           , functionName := ← decStr (j.getField "functionName")
           , file := ← decStr (j.getField "file")
           , line := ← decInt (j.getField "line")
           , addr := ← decNat (j.getField "addr") }
  | _ => none

def PCLine.unmarshal (j : JVal) : Option PCLine := do
  match j with
  | .obj _ =>
    return { file := ← decStr (j.getField "file")
           , line := ← decInt (j.getField "line")
           , value := ← decNat (j.getField "value")
           , type := ← decNat (j.getField "type")
           , name := ← decStr (j.getField "name")
           , goType := ← decNat (j.getField "goType") }
  | _ => none

def Thread.unmarshal (j : JVal) : Option Thread := do
  match j with
  | .obj _ =>
    return { id := ← decInt (j.getField "id")
           , status := ← decNat (j.getField "status")
           , currentPC := ← decNat (j.getField "currentPc")
           , currentLine := ← decPtr PCLine.unmarshal (j.getField "currentLine")
           , isCurrent := ← decBool (j.getField "isCurrent") }
  | _ => none

def strOfJVal : JVal → Option String
  | .str s => some s
  | .null => some ""
  | _ => none

def Process.unmarshal (j : JVal) : Option Process := do
  match j with
  | .obj _ =>
    return { files := ← decList strOfJVal (j.getField "files")
           , exited := ← decBool (j.getField "exited")
           , status := ← decNat (j.getField "status") }
  | _ => none

def MessageData.unmarshal (j : JVal) : Option MessageData := do
  match j with
  | .obj _ =>
    return { body := ← decStr (j.getField "body")
           , level := ← decInt (j.getField "level")
           , isError := ← decBool (j.getField "isError") }
  | _ => none

def ThreadsUpdatedData.unmarshal (j : JVal) : Option ThreadsUpdatedData := do
  match j with
  | .obj _ =>
    return { timestamp := ← decInt (j.getField "timestamp")
           , threads := ← decList Thread.unmarshal (j.getField "threads") }
  | _ => none

def BreakPointsUpdatedData.unmarshal (j : JVal) : Option BreakPointsUpdatedData := do
  match j with
  | .obj _ =>
    return { timestamp := ← decInt (j.getField "timestamp")
           , breakPoints := ← decList BreakPoint.unmarshal (j.getField "breakPoints") }
  | _ => none

def ProcessUpdatedData.unmarshal (j : JVal) : Option ProcessUpdatedData := do
  match j with
  | .obj _ =>
    return { process := ← decPtr Process.unmarshal (j.getField "process") }
  | _ => none

def Event.unmarshal (j : JVal) : Option Event := do
  match j with
  | .obj _ =>
    return { name := ← decStr (j.getField "name")
           , message := ← decPtr MessageData.unmarshal (j.getField "message")
           , threadsUpdated := ← decPtr ThreadsUpdatedData.unmarshal (j.getField "threadsUpdated")
           , breakPointsUpdated := ← decPtr BreakPointsUpdatedData.unmarshal (j.getField "breakPointsUpdated")
           , processUpdated := ← decPtr ProcessUpdatedData.unmarshal (j.getField "processUpdated") }
  | _ => none

end api

/-! ## `client` package: the command frames written by `WebsocketClient`

Each command method of `client/client.go` builds one `api.Command` value and
writes its JSON marshalling as one frame.  The methods for
`ClearBreakPoints`, `Detach`, `Kill`, `Continue`, `Step` and `Next` set only
the `Name` field. -/

namespace client

def addBreakPointFrame (location : String) : api.Command :=
  { api.namedCommand "AddBreakPoint" with addBreakPoint := some ⟨location⟩ }

def clearBreakPointsFrame : api.Command := api.namedCommand "ClearBreakPoints"

def detachFrame : api.Command := api.namedCommand "Detach"

def killFrame : api.Command := api.namedCommand "Kill"

def switchThreadFrame (id : Int) : api.Command :=
  { api.namedCommand "SwitchThread" with switchThread := some ⟨id⟩ }

def continueFrame : api.Command := api.namedCommand "Continue"

def stepFrame : api.Command := api.namedCommand "Step"

def nextFrame : api.Command := api.namedCommand "Next"

def clearFrame (addr : Nat) : api.Command :=
  { api.namedCommand "Clear" with clear := some ⟨addr⟩ }

/-- The payload keys of a wire frame that are populated (present and not
JSON `null`); the `name` discriminant itself is not a payload. -/
def populatedPayloadKeys : JVal → List String
  | .obj fs => (fs.filter (fun kv => kv.1 != "name" && !kv.2.isNull)).map (fun kv => kv.1)
  | _ => []

end client

/-! ## `terminal` package: command dispatch (`terminal/command.go`)

`cmdfunc` values are Go closures; they are modelled by an enumeration naming
each handler defined in the file (plus `custom` for handlers supplied to
`Register`), which is all the dispatch logic observes. -/

namespace terminal

inductive CmdFn : Type
  | help | breakpoint | cont | stepFn | nextFn | threads | thread
  | clear | goroutines | breakpoints | printVar | info
  | nullCommand | noCmdAvailable
  | custom : Nat → CmdFn
deriving DecidableEq

structure command where
  aliases : List String
  helpMsg : String
  cmdFn : CmdFn
deriving DecidableEq

/-- `command.match`: true when `cmdstr` is one of the aliases. -/
def cmdMatch (c : command) (cmdstr : String) : Bool :=
  c.aliases.any (fun v => v == cmdstr)

structure Commands where
  cmds : List command
  lastCmd : Option CmdFn
deriving DecidableEq

/-- `DebugCommands`: the default dispatch table. -/
def debugCommands : Commands :=
  { cmds :=
      [ ⟨["help"], "Prints the help message.", .help⟩
      , ⟨["break", "b"], "Set break point at the entry point of a function, or at a specific file/line. Example: break foo.go:13", .breakpoint⟩
      , ⟨["continue", "c"], "Run until breakpoint or program termination.", .cont⟩
      , ⟨["step", "si"], "Single step through program.", .stepFn⟩
      , ⟨["next", "n"], "Step over to next source line.", .nextFn⟩
      , ⟨["threads"], "Print out info for every traced thread.", .threads⟩
      , ⟨["thread", "t"], "Switch to the specified thread.", .thread⟩
      , ⟨["clear"], "Deletes breakpoint.", .clear⟩
      , ⟨["goroutines"], "Print out info for every goroutine.", .goroutines⟩
      , ⟨["breakpoints", "bp"], "Print out info for active breakpoints.", .breakpoints⟩
      , ⟨["print", "p"], "Evaluate a variable.", .printVar⟩
      , ⟨["info"], "Provides info about args, funcs, locals, sources, or vars.", .info⟩
      , ⟨["exit"], "Exit the debugger.", .nullCommand⟩ ]
  , lastCmd := none }

/-- `Commands.Register`: Go ranges over `c.cmds` by value, so the assignment
`v.cmdFn = cf` on a match writes a copy of the slice element and the early
`return` leaves the table unchanged; only a non-matching `cmdstr` appends a
new entry. -/
def Commands.register (c : Commands) (cmdstr : String) (cf : CmdFn) (helpMsg : String) : Commands :=
  if c.cmds.any (fun v => cmdMatch v cmdstr) then c
  else { c with cmds := c.cmds ++ [⟨[cmdstr], helpMsg, cf⟩] }

/-- `Commands.Find`: the empty string replays `lastCmd` (or the null command
when there is none); otherwise the first alias match wins and is recorded in
`lastCmd`; no match yields `noCmdAvailable`. -/
def Commands.find (c : Commands) (cmdstr : String) : Commands × CmdFn :=
  if cmdstr == "" then
    (c, c.lastCmd.getD .nullCommand)
  else
    match c.cmds.find? (fun v => cmdMatch v cmdstr) with
    | some v => ({ c with lastCmd := some v.cmdFn }, v.cmdFn)
    | none => (c, .noCmdAvailable)

/-- Split a character list at every space, keeping empty fields, as
`strings.Split(s, " ")` does. -/
def splitSpaces : List Char → List (List Char)
  | [] => [[]]
  | c :: cs =>
    let r := splitSpaces cs
    if c = ' ' then [] :: r
    else
      match r with
      | [] => [[c]]
      | w :: ws => (c :: w) :: ws

/-- `parseCommand`: split on single spaces into command word and arguments. -/
def parseCommand (cmdstr : String) : String × List String :=
  match (splitSpaces cmdstr.toList).map (fun w => String.mk w) with
  | [] => ("", [])
  | v :: vs => (v, vs)

/-- Outcome of one iteration of the `Term.Run` input loop. -/
inductive StepOut : Type
  | skipped
  | exitLoop
  | dispatched : CmdFn → List String → StepOut
deriving DecidableEq

/-- One iteration of `Term.Run` on one input line: a zero-length line is
skipped (`continue`) before any dispatch, `exit` leaves the loop, any other
line is parsed and dispatched through `Commands.Find`. -/
def runStep (cmds : Commands) (line : String) : Commands × StepOut :=
  if line.length = 0 then (cmds, .skipped)
  else
    let (cmdstr, args) := parseCommand line
    if cmdstr == "exit" then (cmds, .exitLoop)
    else
      let (cmds', fn) := cmds.find cmdstr
      (cmds', .dispatched fn args)

/-- The `Term.Run` loop over a list of input lines, collecting the handlers
actually dispatched (in order). -/
def runLines (cmds : Commands) : List String → List (CmdFn × List String)
  | [] => []
  | line :: rest =>
    match runStep cmds line with
    | (_, .skipped) => runLines cmds rest
    | (_, .exitLoop) => []
    | (cmds', .dispatched fn args) => (fn, args) :: runLines cmds' rest

end terminal

/-! ## `proctl`: the traced-process state

The `proctl` package (the process handle) is an external collaborator whose
sources are not part of this repository slice; the state the server code
reads (`Exited`, `HWBreakPoints`, `BreakPoints`, threads, current thread)
and the operations the claims need are modelled from the spec. -/

namespace proctl

structure BreakPoint where
  id : Int
  functionName : String
  file : String
  line : Int
  addr : Nat
  temp : Bool
deriving DecidableEq

/-- The observable state of a `DebuggedProcess`: hardware breakpoints are an
array of nullable slots, software breakpoints a map keyed by address. -/
structure DebuggedProcess where
  pid : Int
  exited : Bool
  hwBreakPoints : List (Option BreakPoint)
  breakPoints : List (Nat × BreakPoint)
  threadIds : List Int
  currentThread : Int
  breakPointIDCounter : Int
deriving DecidableEq

/-- Modelled from the spec: `proctl.DebuggedProcess.BreakByLocation` (absent
from the sources) resolves the location to an address through the symbol
resolver (`resolve`), fails with a resolution error when it does not
resolve, with a duplicate-address error when a breakpoint already sits at
that address, and otherwise installs a breakpoint carrying a fresh,
monotonically assigned ID. -/
def DebuggedProcess.breakByLocation (resolve : String → Option Nat)
    (p : DebuggedProcess) (loc : String) :
    Except String (DebuggedProcess × BreakPoint) :=
  match resolve loc with
  | none => .error "ResolutionError"
  | some addr =>
    if (p.hwBreakPoints.filterMap id).any (fun b => b.addr == addr)
        || p.breakPoints.any (fun kb => kb.1 == addr) then
      .error "DuplicateAddressError"
    else
      let bp : BreakPoint := ⟨p.breakPointIDCounter, "", loc, 0, addr, false⟩
      .ok ({ p with
              breakPoints := p.breakPoints ++ [(addr, bp)]
            , breakPointIDCounter := p.breakPointIDCounter + 1 }, bp)

/-- Modelled from the spec: `proctl.DebuggedProcess.Clear` (absent from the
sources) removes the breakpoint installed at the address — hardware slots
first, then software — failing with a not-found error when none exists
there.  `clearFail` stands for the lower-level clear failures the callers
tolerate; a failed clear leaves the state unchanged. -/
def DebuggedProcess.clearAddr (clearFail : Nat → Bool)
    (p : DebuggedProcess) (addr : Nat) :
    DebuggedProcess × Except String BreakPoint :=
  if clearFail addr then (p, .error "ClearFailedError")
  else
    match (p.hwBreakPoints.filterMap id).find? (fun b => b.addr == addr) with
    | some bp =>
      let hw := p.hwBreakPoints.map
        (fun o => if o.map (fun b => b.addr) == some addr then none else o)
      ({ p with hwBreakPoints := hw }, .ok bp)
    | none =>
      match p.breakPoints.find? (fun kb => kb.1 == addr) with
      | some kb =>
        ({ p with breakPoints := p.breakPoints.filter (fun kb2 => kb2.1 != addr) },
         .ok kb.2)
      | none => (p, .error "NotFoundError")

end proctl

/-! ## `proctl/server`: the Debugger command handlers

Two variants exist in the sources: the channel-loop `Debugger` of
`server.go` (`server…` definitions) and the `procManager`-based one of
`websocket.go` (`ws…` definitions), which is the one `cmd/dlv/main.go`
wires up.  `ProcessManager.Exec` (absent from the sources) is modelled from
the spec as running the submitted operation and returning its result.
External effects are explicit: the result of each process-handle call is an
input, and every handler reports the handle calls it made, the events it
sent on the event channel, its returned error, and whether it panicked. -/

namespace server

inductive Call : Type
  | ptraceDetach
  | killProcess
  | clearBp : Nat → Call
  | continueProc
  | stepProc
  | nextProc
deriving DecidableEq

structure HandlerOut where
  proc : proctl.DebuggedProcess
  err : Option String
  events : List api.Event
  calls : List Call
  panicked : Bool
deriving DecidableEq

/-- The no-op outcome: state untouched, nil error, nothing sent, no handle
call. -/
def noopOut (p : proctl.DebuggedProcess) : HandlerOut :=
  ⟨p, none, [], [], false⟩

/-- `sendMessage`: the event written to the `events` channel. -/
def messageEvent (body : String) : api.Event :=
  { name := "Message", message := some ⟨body, 0, false⟩, threadsUpdated := none
  , breakPointsUpdated := none, processUpdated := none }

def apiBreakPoint (bp : proctl.BreakPoint) : api.BreakPoint :=
  ⟨bp.id, bp.functionName, bp.file, bp.line, bp.addr⟩

/-- The collection `NotifyBreakPointsUpdated` snapshots: every non-nil
hardware breakpoint, then every non-temporary software breakpoint. -/
def visibleBreakPoints (p : proctl.DebuggedProcess) : List api.BreakPoint :=
  (p.hwBreakPoints.filterMap id).map apiBreakPoint
    ++ ((p.breakPoints.map (fun kb => kb.2)).filter (fun b => !b.temp)).map apiBreakPoint

/-- The event `NotifyBreakPointsUpdated` emits (`now` is `time.Now`). -/
def breakPointsUpdatedEvent (now : Int) (p : proctl.DebuggedProcess) : api.Event :=
  { name := "BreakPointsUpdated", message := none, threadsUpdated := none
  , breakPointsUpdated := some ⟨now, visibleBreakPoints p⟩, processUpdated := none }

/-- The externally supplied outcomes of process-handle calls: the wall
clock, the symbol resolver, per-address clear failures, the results of
ptrace detach / kill, and the state transitions of continue/step/next. -/
structure Ext where
  now : Int
  resolve : String → Option Nat
  clearFail : Nat → Bool
  detachResult : Option String
  killResult : Option String
  continueOp : proctl.DebuggedProcess → proctl.DebuggedProcess × Option String
  stepOp : proctl.DebuggedProcess → proctl.DebuggedProcess × Option String
  nextOp : proctl.DebuggedProcess → proctl.DebuggedProcess × Option String

/-- `websocket.go` `Debugger.Detach`: inside `Exec`, an exited process is a
no-op; otherwise the message is sent and `sys.PtraceDetach` called, its
error returned. -/
def wsDetach (ext : Ext) (p : proctl.DebuggedProcess) : HandlerOut :=
  if p.exited then noopOut p
  else ⟨p, ext.detachResult, [messageEvent "Detaching from process"], [.ptraceDetach], false⟩

/-- `websocket.go` `Debugger.Kill`: exited is a no-op; otherwise the message
is sent and `proc.Process.Kill` called. -/
def wsKill (ext : Ext) (p : proctl.DebuggedProcess) : HandlerOut :=
  if p.exited then noopOut p
  else ⟨p, ext.killResult, [messageEvent "Killing process"], [.killProcess], false⟩

/-- `server.go` `Debugger.Detach`: no exited check — the message is sent and
`sys.PtraceDetach` attempted unconditionally. -/
def serverDetach (ext : Ext) (p : proctl.DebuggedProcess) : HandlerOut :=
  ⟨p, ext.detachResult, [messageEvent "Detaching from process"], [.ptraceDetach], false⟩

/-- `server.go` `Debugger.Kill`: no exited check. -/
def serverKill (ext : Ext) (p : proctl.DebuggedProcess) : HandlerOut :=
  ⟨p, ext.killResult, [messageEvent "Killing process"], [.killProcess], false⟩

/-- The installed (non-nil) hardware breakpoints. -/
def hwSet (p : proctl.DebuggedProcess) : List proctl.BreakPoint :=
  p.hwBreakPoints.filterMap id

/-- The addresses of the installed hardware breakpoints (nil slots are
skipped in the `HWBreakPoints` loop). -/
def hwAddrs (p : proctl.DebuggedProcess) : List Nat :=
  (p.hwBreakPoints.filterMap id).map (fun b => b.addr)

/-- The keys ranged over by `for pc := range proc.BreakPoints`. -/
def swPcs (p : proctl.DebuggedProcess) : List Nat :=
  p.breakPoints.map (fun kb => kb.1)

/-- One clear attempt inside the `ClearBreakPoints` loops: the error, if
any, is printed and the loop continues. -/
def clearStep (cf : Nat → Bool) (q : proctl.DebuggedProcess) (a : Nat) :
    proctl.DebuggedProcess :=
  (q.clearAddr cf a).1

/-- `Debugger.ClearBreakPoints` (identical in `server.go` and
`websocket.go`): a no-op when exited; otherwise every hardware breakpoint
and then every software breakpoint gets a clear attempt, individual
failures are logged and tolerated, and the informational message is the
only event sent. -/
def wsClearBreakPoints (ext : Ext) (p : proctl.DebuggedProcess) : HandlerOut :=
  if p.exited then noopOut p
  else
    let p1 := (hwAddrs p).foldl (clearStep ext.clearFail) p
    let p2 := (swPcs p).foldl (clearStep ext.clearFail) p1
    ⟨p2, none, [messageEvent "Cleared all breakpoints"],
      ((hwAddrs p) ++ (swPcs p)).map Call.clearBp, false⟩

/-- `server.go` `Debugger.ClearBreakPoints` has the same body. -/
def serverClearBreakPoints (ext : Ext) (p : proctl.DebuggedProcess) : HandlerOut :=
  wsClearBreakPoints ext p

/-- The message `AddBreakPoint` formats on success. -/
def bpSetMsg (bp : proctl.BreakPoint) : String :=
  "Breakpoint " ++ toString bp.id ++ " set at " ++ toString bp.addr
    ++ " for " ++ bp.functionName ++ " " ++ bp.file ++ ":" ++ toString bp.line

/-- `websocket.go` `Debugger.AddBreakPoint`: inside `Exec` the success
message is formatted from `bp` even when `BreakByLocation` failed — `bp` is
nil then, so the handler panics before sending anything and the
unconditional `NotifyBreakPointsUpdated` after `Exec` is never reached.  On
success the message and then the snapshot event are sent. -/
def wsAddBreakPoint (ext : Ext) (p : proctl.DebuggedProcess) (loc : String) : HandlerOut :=
  match p.breakByLocation ext.resolve loc with
  | .error _ => ⟨p, none, [], [], true⟩
  | .ok (p', bp) =>
    ⟨p', none, [messageEvent (bpSetMsg bp), breakPointsUpdatedEvent ext.now p'], [], false⟩

/-- `server.go` `Debugger.AddBreakPoint`: on failure an error message is
sent and the error returned, with no snapshot; on success the message and
the `NotifyBreakPointsUpdated` snapshot are sent. -/
def serverAddBreakPoint (ext : Ext) (p : proctl.DebuggedProcess) (loc : String) : HandlerOut :=
  match p.breakByLocation ext.resolve loc with
  | .error e =>
    ⟨p, some e, [messageEvent ("Error setting breakpoint: " ++ e)], [], false⟩
  | .ok (p', bp) =>
    ⟨p', none, [messageEvent (bpSetMsg bp), breakPointsUpdatedEvent ext.now p'], [], false⟩

/-- `websocket.go` `Debugger.Continue`: a no-op when exited, else
`proc.Continue()` with its result propagated. -/
def wsContinue (ext : Ext) (p : proctl.DebuggedProcess) : HandlerOut :=
  if p.exited then noopOut p
  else
    let r := ext.continueOp p
    ⟨r.1, r.2, [], [.continueProc], false⟩

/-- `websocket.go` `Debugger.Step`. -/
def wsStep (ext : Ext) (p : proctl.DebuggedProcess) : HandlerOut :=
  if p.exited then noopOut p
  else
    let r := ext.stepOp p
    ⟨r.1, r.2, [], [.stepProc], false⟩

/-- `websocket.go` `Debugger.Next`. -/
def wsNext (ext : Ext) (p : proctl.DebuggedProcess) : HandlerOut :=
  if p.exited then noopOut p
  else
    let r := ext.nextOp p
    ⟨r.1, r.2, [], [.nextProc], false⟩

/-- `server.go` `Debugger.Continue` (same guard, without the `Exec`
wrapper). -/
def serverContinue (ext : Ext) (p : proctl.DebuggedProcess) : HandlerOut :=
  if p.exited then noopOut p
  else
    let r := ext.continueOp p
    ⟨r.1, r.2, [], [.continueProc], false⟩

/-- `server.go` `Debugger.Step`. -/
def serverStep (ext : Ext) (p : proctl.DebuggedProcess) : HandlerOut :=
  if p.exited then noopOut p
  else
    let r := ext.stepOp p
    ⟨r.1, r.2, [], [.stepProc], false⟩

/-- `server.go` `Debugger.Next`. -/
def serverNext (ext : Ext) (p : proctl.DebuggedProcess) : HandlerOut :=
  if p.exited then noopOut p
  else
    let r := ext.nextOp p
    ⟨r.1, r.2, [], [.nextProc], false⟩

/-- `Debugger.Clear`: a no-op when exited, else `proc.Clear(addr)` with the
error propagated. -/
def wsClear (ext : Ext) (p : proctl.DebuggedProcess) (addr : Nat) : HandlerOut :=
  if p.exited then noopOut p
  else
    let r := p.clearAddr ext.clearFail addr
    ⟨r.1, match r.2 with | .ok _ => none | .error e => some e, [], [.clearBp addr], false⟩

/-! ### Command dispatch (`websocket.go` `NewWebsocketServer` /
`readCommands`) -/

inductive HandlerTag : Type
  | addBreakPoint | clear | clearBreakPoints | detach | kill
  | continueTag | stepTag | nextTag
deriving DecidableEq

/-- The `commandHandlers` map literal of `NewWebsocketServer` (and,
identically, of `server.go`'s `NewDebugger`): eight entries, none for
`SwitchThread`. -/
def commandHandlers : List (String × HandlerTag) :=
  [ ("AddBreakPoint", .addBreakPoint)
  , ("Clear", .clear)
  , ("ClearBreakPoints", .clearBreakPoints)
  , ("Detach", .detach)
  , ("Kill", .kill)
  , ("Continue", .continueTag)
  , ("Step", .stepTag)
  , ("Next", .nextTag) ]

def lookupHandler (n : String) : Option HandlerTag :=
  (commandHandlers.find? (fun kv => kv.1 == n)).map (fun kv => kv.2)

/-- Invoking one handler on a decoded command.  The `AddBreakPoint` and
`Clear` handlers read `command.AddBreakPoint.Location` and
`command.Clear.BreakPoint` without a nil check, so a frame naming them
without the payload panics. -/
def runHandler (ext : Ext) (tag : HandlerTag) (c : api.Command)
    (p : proctl.DebuggedProcess) : HandlerOut :=
  match tag with
  | .addBreakPoint =>
    match c.addBreakPoint with
    | none => ⟨p, none, [], [], true⟩
    | some pl => wsAddBreakPoint ext p pl.location
  | .clear =>
    match c.clear with
    | none => ⟨p, none, [], [], true⟩
    | some pl => wsClear ext p pl.breakPoint
  | .clearBreakPoints => wsClearBreakPoints ext p
  | .detach => wsDetach ext p
  | .kill => wsKill ext p
  | .continueTag => wsContinue ext p
  | .stepTag => wsStep ext p
  | .nextTag => wsNext ext p

inductive DispatchOut : Type
  | noHandler
  | handled : HandlerOut → DispatchOut
deriving DecidableEq

/-- One decoded command through the `readCommands` dispatch: an unknown
name is logged and the frame dropped, the state untouched; otherwise the
handler runs. -/
def dispatchCommand (ext : Ext) (p : proctl.DebuggedProcess) (c : api.Command) :
    proctl.DebuggedProcess × DispatchOut :=
  match lookupHandler c.name with
  | none => (p, .noHandler)
  | some tag =>
    let out := runHandler ext tag c p
    (out.proc, .handled out)

end server

/-! ## Concrete fixtures for witnesses and counterexamples -/

/-- Fixed external outcomes: the clock at 0, nothing resolves, no clear
fails, detach and kill succeed, continue/step/next leave the state put. -/
def ext0 : server.Ext :=
  { now := 0
  , resolve := fun _ => none
  , clearFail := fun _ => false
  , detachResult := none
  , killResult := none
  , continueOp := fun p => (p, none)
  , stepOp := fun p => (p, none)
  , nextOp := fun p => (p, none) }

def bp100 : proctl.BreakPoint := ⟨1, "main.main", "main.go", 10, 100, false⟩

/-- A live process with one software breakpoint and threads 1 and 2, thread
1 current. -/
def pLive : proctl.DebuggedProcess :=
  ⟨7, false, [none, none, none, none], [(100, bp100)], [1, 2], 1, 2⟩

/-- A process that has exited. -/
def pExited : proctl.DebuggedProcess :=
  ⟨7, true, [none, none, none, none], [], [1], 1, 1⟩

/-- A Step command with its (tag-conflicted) payload populated. -/
def stepPayloadCmd : api.Command :=
  { api.namedCommand "Step" with step := some ⟨⟩ }

/-- A Next command with its (tag-conflicted) payload populated. -/
def nextPayloadCmd : api.Command :=
  { api.namedCommand "Next" with next := some ⟨⟩ }

/-- The dispatch table right after a successful lookup of `break`. -/
def cmdsAfterBreak : terminal.Commands :=
  (terminal.debugCommands.find "break").1

end delve

open delve

/-! ## Helper lemmas about the breakpoint-clearing loops -/

theorem filterMap_id_map_mem {α : Type} {l : List (Option α)}
    {f : Option α → Option α} (hf : ∀ o, f o = o ∨ f o = none) {b : α}
    (hb : b ∈ (l.map f).filterMap id) : b ∈ l.filterMap id := by
  rw [List.mem_filterMap] at hb ⊢
  obtain ⟨o, ho, hob⟩ := hb
  rw [List.mem_map] at ho
  obtain ⟨o', ho', rfl⟩ := ho
  rcases hf o' with h | h
  · exact ⟨o', ho', h ▸ hob⟩
  · rw [h] at hob; cases hob

theorem clearStep_hw_mem {cf : Nat → Bool} {q : delve.proctl.DebuggedProcess}
    {a : Nat} {b : delve.proctl.BreakPoint}
    (hb : b ∈ server.hwSet (server.clearStep cf q a)) : b ∈ server.hwSet q := by
  unfold server.clearStep delve.proctl.DebuggedProcess.clearAddr at hb
  split at hb
  · exact hb
  · split at hb
    · refine filterMap_id_map_mem (fun o => ?_) hb
      by_cases h : (o.map (fun b => b.addr) == some a) = true
      · right; simp [h]
      · left; simp [h]
    · split at hb
      · exact hb
      · exact hb

theorem clearStep_sw_sublist (cf : Nat → Bool) (q : delve.proctl.DebuggedProcess)
    (a : Nat) :
    List.Sublist (server.clearStep cf q a).breakPoints q.breakPoints := by
  unfold server.clearStep delve.proctl.DebuggedProcess.clearAddr
  split
  · exact List.Sublist.refl _
  · split
    · exact List.Sublist.refl _
    · split
      · exact List.filter_sublist _
      · exact List.Sublist.refl _

theorem clearStep_hw_cleared {cf : Nat → Bool} {q : delve.proctl.DebuggedProcess}
    {a : Nat} (hcf : cf a = false) {b : delve.proctl.BreakPoint}
    (hb : b ∈ server.hwSet (server.clearStep cf q a)) : b.addr ≠ a := by
  unfold server.clearStep delve.proctl.DebuggedProcess.clearAddr at hb
  rw [if_neg (by simp [hcf])] at hb
  split at hb
  case h_1 bp heq =>
    intro hba
    rw [server.hwSet, List.mem_filterMap] at hb
    obtain ⟨o, ho, hob⟩ := hb
    rw [List.mem_map] at ho
    obtain ⟨o', _, rfl⟩ := ho
    by_cases h : (o'.map (fun b => b.addr) == some a) = true
    · rw [if_pos h] at hob; cases hob
    · rw [if_neg h] at hob
      rw [show o' = some b from hob] at h
      simp [hba] at h
  case h_2 heq =>
    have hnone : ∀ x ∈ server.hwSet q, ¬((fun b => b.addr == a) x = true) :=
      List.find?_eq_none.mp heq
    intro hba
    split at hb
    · exact hnone b hb (by simp [hba])
    · exact hnone b hb (by simp [hba])

theorem clear_fold_hw (cf : Nat → Bool) (hcf : ∀ a, cf a = false) :
    ∀ (addrs : List Nat) (q : delve.proctl.DebuggedProcess),
      (∀ b ∈ server.hwSet q, b.addr ∈ addrs) →
      server.hwSet (addrs.foldl (server.clearStep cf) q) = []
      ∧ List.Sublist (addrs.foldl (server.clearStep cf) q).breakPoints q.breakPoints
  | [], q, hcov => by
    constructor
    · rw [List.eq_nil_iff_forall_not_mem]
      intro b hb
      exact absurd (hcov b hb) (List.not_mem_nil b.addr)
    · exact List.Sublist.refl _
  | a :: rest, q, hcov => by
    have hstep : ∀ b ∈ server.hwSet (server.clearStep cf q a), b.addr ∈ rest := by
      intro b hb
      have hmem := clearStep_hw_mem hb
      have hne := clearStep_hw_cleared (hcf a) hb
      rcases List.mem_cons.mp (hcov b hmem) with h | h
      · exact absurd h hne
      · exact h
    have ih := clear_fold_hw cf hcf rest (server.clearStep cf q a) hstep
    refine ⟨ih.1, List.Sublist.trans ih.2 (clearStep_sw_sublist cf q a)⟩

theorem clearStep_of_hw_empty {cf : Nat → Bool} {q : delve.proctl.DebuggedProcess}
    {k : Nat} (hcf : cf k = false) (hhw : server.hwSet q = []) :
    server.hwSet (server.clearStep cf q k) = []
    ∧ ∀ kb ∈ (server.clearStep cf q k).breakPoints, kb ∈ q.breakPoints ∧ kb.1 ≠ k := by
  unfold server.clearStep delve.proctl.DebuggedProcess.clearAddr
  rw [if_neg (by simp [hcf])]
  rw [show (q.hwBreakPoints.filterMap id) = [] from hhw]
  simp only [List.find?_nil]
  split
  case h_1 kb0 heq =>
    constructor
    · exact hhw
    · intro kb hkb
      rw [List.mem_filter] at hkb
      refine ⟨hkb.1, ?_⟩
      have := hkb.2
      simp only [bne_iff_ne, ne_eq, decide_eq_true_eq] at this
      exact this
  case h_2 heq =>
    constructor
    · exact hhw
    · intro kb hkb
      refine ⟨hkb, ?_⟩
      have hnone : ∀ x ∈ q.breakPoints, ¬((fun kb => kb.1 == k) x = true) :=
        List.find?_eq_none.mp heq
      intro hk
      exact hnone kb hkb (by simp [hk])

theorem clear_fold_sw (cf : Nat → Bool) (hcf : ∀ a, cf a = false) :
    ∀ (ks : List Nat) (q : delve.proctl.DebuggedProcess),
      server.hwSet q = [] →
      (∀ kb ∈ q.breakPoints, kb.1 ∈ ks) →
      (ks.foldl (server.clearStep cf) q).breakPoints = []
      ∧ server.hwSet (ks.foldl (server.clearStep cf) q) = []
  | [], q, hhw, hcov => by
    constructor
    · rw [List.eq_nil_iff_forall_not_mem]
      intro kb hkb
      exact absurd (hcov kb hkb) (List.not_mem_nil kb.1)
    · exact hhw
  | k :: rest, q, hhw, hcov => by
    have hstep := clearStep_of_hw_empty (hcf k) hhw (q := q) (k := k)
    have hcov' : ∀ kb ∈ (server.clearStep cf q k).breakPoints, kb.1 ∈ rest := by
      intro kb hkb
      obtain ⟨hmem, hne⟩ := hstep.2 kb hkb
      rcases List.mem_cons.mp (hcov kb hmem) with h | h
      · exact absurd h hne
      · exact h
    exact clear_fold_sw cf hcf rest (server.clearStep cf q k) hstep.1 hcov'

/-! ## Claim theorems -/

/-- C1: round-tripping a `Command` whose populated payload matches its Name
fails for the Step and Next kinds: the duplicate JSON tag `step` on both
fields makes the encoder drop the payload, and decoding yields a command
with the payload nil, not the original value.  (All other kinds, and all
Event kinds, use distinct tags.) -/
theorem command_step_next_payload_not_roundtripped :
    api.Command.unmarshal (api.Command.marshal stepPayloadCmd)
      = some (api.namedCommand "Step")
    ∧ api.namedCommand "Step" ≠ stepPayloadCmd
    ∧ api.Command.unmarshal (api.Command.marshal nextPayloadCmd)
      = some (api.namedCommand "Next")
    ∧ api.namedCommand "Next" ≠ nextPayloadCmd := by
  refine ⟨by decide, by decide, by decide, by decide⟩

/-- C2 (counterexample): dispatching a SwitchThread command whose thread ID
(2) is present in the thread collection does not update the current-thread
marker (it stays 1) and invokes no handler at all — contradicting the claim
that a present ID switches the current thread. -/
theorem switchThread_dispatch_known_id_not_switched :
    pLive.threadIds = [1, 2]
    ∧ pLive.currentThread = 1
    ∧ server.dispatchCommand ext0 pLive (client.switchThreadFrame 2)
        = (pLive, server.DispatchOut.noHandler)
    ∧ server.dispatchCommand ext0 pLive (client.switchThreadFrame 99)
        = (pLive, server.DispatchOut.noHandler)
    ∧ (server.dispatchCommand ext0 pLive (client.switchThreadFrame 2)).1.currentThread ≠ 2 := by
  refine ⟨rfl, rfl, by decide, by decide, by decide⟩

/-- C2 (amended): the handler maps of `NewWebsocketServer` and `NewDebugger`
register no SwitchThread entry, so dispatching a SwitchThread command —
whatever its thread ID and whatever the process state — finds no handler,
is dropped, and leaves the state (in particular the current-thread marker)
unchanged. -/
theorem switchThread_dispatch_never_handled :
    server.lookupHandler "SwitchThread" = none
    ∧ ∀ (ext : server.Ext) (p : delve.proctl.DebuggedProcess) (id : Int),
        server.dispatchCommand ext p (client.switchThreadFrame id)
          = (p, server.DispatchOut.noHandler) := by
  exact ⟨rfl, fun ext p id => rfl⟩

/-- C3: once the process has exited, the Continue, Step and Next handlers of
both Debugger variants return success (nil error) without invoking the
process handle and without touching the process state. -/
theorem continue_step_next_noop_after_exit (ext : server.Ext)
    (p : delve.proctl.DebuggedProcess) (h : p.exited = true) :
    server.wsContinue ext p = server.noopOut p
    ∧ server.wsStep ext p = server.noopOut p
    ∧ server.wsNext ext p = server.noopOut p
    ∧ server.serverContinue ext p = server.noopOut p
    ∧ server.serverStep ext p = server.noopOut p
    ∧ server.serverNext ext p = server.noopOut p := by
  refine ⟨?_, ?_, ?_, ?_, ?_, ?_⟩ <;>
    simp [server.wsContinue, server.wsStep, server.wsNext, server.serverContinue,
      server.serverStep, server.serverNext, h]

theorem continue_step_next_noop_after_exit_witness :
    pExited.exited = true
    ∧ server.wsContinue ext0 pExited = server.noopOut pExited := by
  exact ⟨rfl, (continue_step_next_noop_after_exit ext0 pExited rfl).1⟩

/-- C4 (counterexample): on a live process with one installed breakpoint,
`ClearBreakPoints` emits only the informational message event; no emitted
event is a breakpoints-updated snapshot, contradicting the claim that one
is always emitted. -/
theorem clearBreakPoints_emits_no_snapshot_event :
    (server.wsClearBreakPoints ext0 pLive).events
      = [server.messageEvent "Cleared all breakpoints"]
    ∧ (server.messageEvent "Cleared all breakpoints").name ≠ "BreakPointsUpdated"
    ∧ ¬ ∃ e ∈ (server.wsClearBreakPoints ext0 pLive).events,
        e.name = "BreakPointsUpdated" := by
  refine ⟨by decide, by decide, by decide⟩

/-- C4 (amended): once the process has exited, `ClearBreakPoints` does
nothing and emits nothing; on a live process, whatever the outcome of each
individual clear, it attempts a clear of every installed hardware and then
every software breakpoint (continuing past individual failures), returns
success, emits exactly the informational message event — no
breakpoints-updated snapshot — and, when no individual clear fails, leaves
the user-visible breakpoint collection empty; the `server.go` handler has
the same body. -/
theorem clearBreakPoints_amended_behavior (ext : server.Ext)
    (p : delve.proctl.DebuggedProcess) :
    (p.exited = true → server.wsClearBreakPoints ext p = server.noopOut p)
    ∧ (p.exited = false →
        (server.wsClearBreakPoints ext p).calls
          = ((server.hwAddrs p) ++ (server.swPcs p)).map server.Call.clearBp
        ∧ (server.wsClearBreakPoints ext p).events
          = [server.messageEvent "Cleared all breakpoints"]
        ∧ (server.wsClearBreakPoints ext p).err = none
        ∧ (server.wsClearBreakPoints ext p).panicked = false)
    ∧ (p.exited = false → (∀ a, ext.clearFail a = false) →
        server.visibleBreakPoints (server.wsClearBreakPoints ext p).proc = [])
    ∧ server.serverClearBreakPoints ext p = server.wsClearBreakPoints ext p := by
  refine ⟨?_, ?_, ?_, rfl⟩
  · intro h
    simp [server.wsClearBreakPoints, server.noopOut, h]
  · intro hlive
    have hbody : server.wsClearBreakPoints ext p =
        ⟨(server.swPcs p).foldl (server.clearStep ext.clearFail)
            ((server.hwAddrs p).foldl (server.clearStep ext.clearFail) p),
          none, [server.messageEvent "Cleared all breakpoints"],
          ((server.hwAddrs p) ++ (server.swPcs p)).map server.Call.clearBp, false⟩ := by
      simp [server.wsClearBreakPoints, hlive]
    exact ⟨by rw [hbody], by rw [hbody], by rw [hbody], by rw [hbody]⟩
  · intro hlive hcf
    have hbody : server.wsClearBreakPoints ext p =
        ⟨(server.swPcs p).foldl (server.clearStep ext.clearFail)
            ((server.hwAddrs p).foldl (server.clearStep ext.clearFail) p),
          none, [server.messageEvent "Cleared all breakpoints"],
          ((server.hwAddrs p) ++ (server.swPcs p)).map server.Call.clearBp, false⟩ := by
      simp [server.wsClearBreakPoints, hlive]
    have hhwcov : ∀ b ∈ server.hwSet p, b.addr ∈ server.hwAddrs p := by
      intro b hb
      exact List.mem_map_of_mem (fun b => b.addr) hb
    have h1 := clear_fold_hw ext.clearFail hcf (server.hwAddrs p) p hhwcov
    have hswcov : ∀ kb ∈ ((server.hwAddrs p).foldl (server.clearStep ext.clearFail) p).breakPoints,
        kb.1 ∈ server.swPcs p := by
      intro kb hkb
      exact List.mem_map_of_mem (fun kb => kb.1) (h1.2.subset hkb)
    have h2 := clear_fold_sw ext.clearFail hcf (server.swPcs p)
      ((server.hwAddrs p).foldl (server.clearStep ext.clearFail) p) h1.1 hswcov
    rw [hbody]
    show server.visibleBreakPoints
      ((server.swPcs p).foldl (server.clearStep ext.clearFail)
        ((server.hwAddrs p).foldl (server.clearStep ext.clearFail) p)) = []
    rw [server.visibleBreakPoints]
    rw [show ((server.swPcs p).foldl (server.clearStep ext.clearFail)
          ((server.hwAddrs p).foldl (server.clearStep ext.clearFail) p)).hwBreakPoints.filterMap id
        = [] from h2.2]
    rw [h2.1]
    rfl

theorem clearBreakPoints_amended_behavior_witness :
    pExited.exited = true
    ∧ server.wsClearBreakPoints ext0 pExited = server.noopOut pExited
    ∧ pLive.exited = false
    ∧ (server.wsClearBreakPoints ext0 pLive).events
        = [server.messageEvent "Cleared all breakpoints"]
    ∧ server.visibleBreakPoints (server.wsClearBreakPoints ext0 pLive).proc = [] := by
  exact ⟨rfl,
    (clearBreakPoints_amended_behavior ext0 pExited).1 rfl,
    rfl,
    ((clearBreakPoints_amended_behavior ext0 pLive).2.1 rfl).2.1,
    (clearBreakPoints_amended_behavior ext0 pLive).2.2.1 rfl (fun a => rfl)⟩

/-- C5: at an unresolvable location, the live (`websocket.go`) AddBreakPoint
handler panics — the success message dereferences the nil breakpoint before
the failure could be returned — while the `server.go` handler returns the
resolution failure, sends only an error message, and emits no
breakpoints-updated snapshot. -/
theorem addBreakPoint_unresolved_location_panics :
    (server.wsAddBreakPoint ext0 pLive "nowhere.go:1").panicked = true
    ∧ server.serverAddBreakPoint ext0 pLive "nowhere.go:1"
        = ⟨pLive, some "ResolutionError",
            [server.messageEvent "Error setting breakpoint: ResolutionError"],
            [], false⟩ := by
  refine ⟨by decide, by decide⟩

/-- C6 (counterexample): after the process has exited, the `server.go`
Detach and Kill handlers still act on the process — each performs its
process-handle call and sends a message event — contradicting the claim
that they return success without acting when the process has exited. -/
theorem server_detach_kill_act_after_exit :
    pExited.exited = true
    ∧ (server.serverDetach ext0 pExited).calls = [server.Call.ptraceDetach]
    ∧ (server.serverKill ext0 pExited).calls = [server.Call.killProcess]
    ∧ (server.serverDetach ext0 pExited).events
        = [server.messageEvent "Detaching from process"]
    ∧ server.serverDetach ext0 pExited ≠ server.noopOut pExited
    ∧ server.serverKill ext0 pExited ≠ server.noopOut pExited := by
  refine ⟨rfl, rfl, rfl, rfl, by decide, by decide⟩

/-- C6 (amended): the `websocket.go` Detach and Kill handlers are idempotent
once the process has exited — success, no event, no handle call, state
untouched — and, while the process is live, Detach sends the informational
message and performs the ptrace detach, and Kill sends its message and
terminates the process; the `server.go` variants lack the exited guard. -/
theorem ws_detach_kill_idempotent_after_exit (ext : server.Ext)
    (p : delve.proctl.DebuggedProcess) :
    (p.exited = true →
      server.wsDetach ext p = server.noopOut p
      ∧ server.wsKill ext p = server.noopOut p)
    ∧ (p.exited = false →
      server.wsDetach ext p
        = ⟨p, ext.detachResult, [server.messageEvent "Detaching from process"],
            [server.Call.ptraceDetach], false⟩
      ∧ server.wsKill ext p
        = ⟨p, ext.killResult, [server.messageEvent "Killing process"],
            [server.Call.killProcess], false⟩) := by
  constructor
  · intro h
    exact ⟨by simp [server.wsDetach, h], by simp [server.wsKill, h]⟩
  · intro h
    exact ⟨by simp [server.wsDetach, h], by simp [server.wsKill, h]⟩

theorem ws_detach_kill_idempotent_after_exit_witness :
    server.wsDetach ext0 pExited = server.noopOut pExited
    ∧ server.wsKill ext0 pExited = server.noopOut pExited := by
  exact (ws_detach_kill_idempotent_after_exit ext0 pExited).1 rfl

/-- C7 (counterexample): after a successful `break foo.go:5`, a following
empty input line dispatches nothing — the run loop produced exactly one
dispatch, not a repeated breakpoint command. -/
theorem empty_input_line_dispatches_nothing :
    terminal.runLines terminal.debugCommands ["break foo.go:5", ""]
      = [(terminal.CmdFn.breakpoint, ["foo.go:5"])]
    ∧ terminal.runLines terminal.debugCommands ["break foo.go:5", ""]
        ≠ [(terminal.CmdFn.breakpoint, ["foo.go:5"]),
           (terminal.CmdFn.breakpoint, ["foo.go:5"])] := by
  refine ⟨by decide, by decide⟩

/-- C7 (amended): the `Term.Run` loop skips a zero-length input line before
any dispatch, so an empty terminal input never re-invokes anything;
`Commands.Find` itself, if handed the empty string, returns the most
recently found handler, or the null command when none was found yet. -/
theorem empty_input_skipped_find_replays_last :
    (∀ cmds : terminal.Commands, terminal.runStep cmds "" = (cmds, terminal.StepOut.skipped))
    ∧ (∀ (cmds : terminal.Commands) (fn : terminal.CmdFn),
        cmds.lastCmd = some fn → (cmds.find "").2 = fn)
    ∧ (∀ cmds : terminal.Commands,
        cmds.lastCmd = none → (cmds.find "").2 = terminal.CmdFn.nullCommand) := by
  refine ⟨fun cmds => rfl, fun cmds fn h => ?_, fun cmds h => ?_⟩
  · simp [terminal.Commands.find, h]
  · simp [terminal.Commands.find, h]

theorem empty_input_skipped_find_replays_last_witness :
    cmdsAfterBreak.lastCmd = some terminal.CmdFn.breakpoint
    ∧ (cmdsAfterBreak.find "").2 = terminal.CmdFn.breakpoint := by
  exact ⟨by decide,
    empty_input_skipped_find_replays_last.2.1 cmdsAfterBreak
      terminal.CmdFn.breakpoint (by decide)⟩

/-- C8 (counterexample): the wire frame the client writes for
ClearBreakPoints has no populated payload field at all (the claim requires
exactly one), and the SwitchThread frame's populated payload key is
`switchThreads`, not the lowerCamelCase `switchThread` of its Name. -/
theorem clearBreakPoints_frame_has_no_populated_payload :
    client.populatedPayloadKeys (api.Command.marshal client.clearBreakPointsFrame) = []
    ∧ client.populatedPayloadKeys (api.Command.marshal client.clearBreakPointsFrame)
        ≠ ["clearBreakPoints"]
    ∧ client.populatedPayloadKeys (api.Command.marshal (client.switchThreadFrame 3))
        = ["switchThreads"]
    ∧ client.populatedPayloadKeys (api.Command.marshal (client.switchThreadFrame 3))
        ≠ ["switchThread"] := by
  refine ⟨by decide, by decide, by decide, by decide⟩

/-- C8 (amended): frames for the payload-carrying commands (AddBreakPoint,
SwitchThread, Clear) have exactly one populated payload field, under the
struct tag (`switchThreads` for SwitchThread, not the lowerCamel form of
the name); the six payload-less command frames (ClearBreakPoints, Detach,
Kill, Continue, Step, Next) have none — their payload keys are present
with null values rather than absent — and no `step` or `next` key exists
in any frame. -/
theorem frame_payload_keys :
    (∀ loc, client.populatedPayloadKeys
        (api.Command.marshal (client.addBreakPointFrame loc)) = ["addBreakPoint"])
    ∧ (∀ id, client.populatedPayloadKeys
        (api.Command.marshal (client.switchThreadFrame id)) = ["switchThreads"])
    ∧ (∀ addr, client.populatedPayloadKeys
        (api.Command.marshal (client.clearFrame addr)) = ["clear"])
    ∧ client.populatedPayloadKeys (api.Command.marshal client.clearBreakPointsFrame) = []
    ∧ client.populatedPayloadKeys (api.Command.marshal client.detachFrame) = []
    ∧ client.populatedPayloadKeys (api.Command.marshal client.killFrame) = []
    ∧ client.populatedPayloadKeys (api.Command.marshal client.continueFrame) = []
    ∧ client.populatedPayloadKeys (api.Command.marshal client.stepFrame) = []
    ∧ client.populatedPayloadKeys (api.Command.marshal client.nextFrame) = []
    ∧ (api.Command.marshal client.stepFrame).getField "step" = none
    ∧ (api.Command.marshal client.nextFrame).getField "next" = none := by
  refine ⟨fun loc => rfl, fun id => rfl, fun addr => rfl,
    rfl, rfl, rfl, rfl, rfl, rfl, rfl, rfl⟩

/-- C10: `Register` called with a command string matching an alias of an
already-registered command leaves the dispatch table unchanged (the Go
`range` variable is a copy, so the handler assignment is lost), and a
subsequent `Find` on that alias returns the originally registered handler. -/
theorem register_existing_alias_leaves_table_unchanged
    (c : terminal.Commands) (s : String) (cf : terminal.CmdFn) (msg : String)
    (h : c.cmds.any (fun v => terminal.cmdMatch v s) = true) :
    c.register s cf msg = c
    ∧ ((c.register s cf msg).find s).2 = (c.find s).2 := by
  have hr : c.register s cf msg = c := by
    simp [terminal.Commands.register, h]
  exact ⟨hr, by rw [hr]⟩

theorem register_existing_alias_leaves_table_unchanged_witness :
    terminal.debugCommands.cmds.any (fun v => terminal.cmdMatch v "b") = true
    ∧ (terminal.debugCommands.register "b" (terminal.CmdFn.custom 0) "x"
        = terminal.debugCommands
       ∧ ((terminal.debugCommands.register "b" (terminal.CmdFn.custom 0) "x").find "b").2
          = (terminal.debugCommands.find "b").2)
    ∧ (terminal.debugCommands.find "b").2 = terminal.CmdFn.breakpoint := by
  exact ⟨by decide,
    register_existing_alias_leaves_table_unchanged
      terminal.debugCommands "b" (terminal.CmdFn.custom 0) "x" (by decide),
    by decide⟩
